import Mathlib

/-!
Verification of the feature-flags Redis client wrapper
(`src/rust/feature-flags/src/client/redis.rs`).

The module under verification is a thin wrapper around a Redis connection:
six operations (`zrangebyscore`, `hincrby`, `get`, `set`, `del`, `hget`),
each racing the underlying command against a fixed 10 ms timeout and
mapping errors into `CustomRedisError`.  Scalar `get`/`set` additionally
pass values through the `serde_pickle` string codec (pickle protocol 2,
`BINUNICODE` + `STOP`), so that values written here can be read by the
legacy Python consumer and vice versa.

The embedding below models:
  * the byte-level string codec (`to_vec` / `from_slice`), including a
    self-contained UTF-8 encoder/decoder over `List Nat` bytes;
  * the Redis store state visible to these six commands;
  * each operation's control flow: connection acquisition, the timeout
    race, and the error mapping, exactly in the order of the source.
-/

namespace FeatureFlagsRedis

/-- Decidable equality on `Except`, so that concrete runs of the
operations can be checked by `decide`. -/
instance {e a : Type} [DecidableEq e] [DecidableEq a] :
    DecidableEq (Except e a) := fun x y =>
  match x, y with
  | .ok x1, .ok y1 =>
    if h : x1 = y1 then .isTrue (congrArg Except.ok h)
    else .isFalse (fun h2 => h (Except.ok.inj h2))
  | .error x1, .error y1 =>
    if h : x1 = y1 then .isTrue (congrArg Except.error h)
    else .isFalse (fun h2 => h (Except.error.inj h2))
  | .ok _, .error _ => .isFalse (fun h2 => Except.noConfusion h2)
  | .error _, .ok _ => .isFalse (fun h2 => Except.noConfusion h2)

/-! ## UTF-8 byte codec

`serde_pickle` writes the string payload as its UTF-8 bytes and reads it
back with Rust's UTF-8 validation.  Bytes are modelled as `Nat` values
(< 256 for every byte actually produced). -/

/-- UTF-8 encoding of a single Unicode scalar value `n` (assumed valid). -/
def utf8EncodeNat (n : Nat) : List Nat :=
  if n < 0x80 then [n]
  else if n < 0x800 then [0xC0 + n / 0x40, 0x80 + n % 0x40]
  else if n < 0x10000 then
    [0xE0 + n / 0x1000, 0x80 + n / 0x40 % 0x40, 0x80 + n % 0x40]
  else
    [0xF0 + n / 0x40000, 0x80 + n / 0x1000 % 0x40, 0x80 + n / 0x40 % 0x40,
      0x80 + n % 0x40]

/-- UTF-8 encoding of a character. -/
def utf8EncodeChar (c : Char) : List Nat := utf8EncodeNat c.toNat

/-- UTF-8 encoding of a character sequence. -/
def utf8Encode : List Char → List Nat
  | [] => []
  | c :: cs => utf8EncodeChar c ++ utf8Encode cs

/-- Decode the first UTF-8 sequence: lead byte `b`, following bytes `bs`.
Returns the decoded character and how many continuation bytes follow the
lead byte.  Validation (continuation ranges, no overlong forms, no
surrogates, codepoints below 0x110000) matches Rust's `String::from_utf8`. -/
def utf8Step (b : Nat) (bs : List Nat) : Option (Char × Nat) :=
  if b < 0x80 then some (Char.ofNat b, 0)
  else if b < 0xC0 then none
  else if b < 0xE0 then
    match bs with
    | b1 :: _ =>
      let n := (b - 0xC0) * 0x40 + (b1 - 0x80)
      if 0x80 ≤ b1 ∧ b1 < 0xC0 ∧ 0x80 ≤ n then some (Char.ofNat n, 1)
      else none
    | _ => none
  else if b < 0xF0 then
    match bs with
    | b1 :: b2 :: _ =>
      let n := (b - 0xE0) * 0x1000 + (b1 - 0x80) * 0x40 + (b2 - 0x80)
      if 0x80 ≤ b1 ∧ b1 < 0xC0 ∧ 0x80 ≤ b2 ∧ b2 < 0xC0 ∧ 0x800 ≤ n ∧
          (n < 0xD800 ∨ 0xE000 ≤ n) then some (Char.ofNat n, 2)
      else none
    | _ => none
  else
    match bs with
    | b1 :: b2 :: b3 :: _ =>
      let n := (b - 0xF0) * 0x40000 + (b1 - 0x80) * 0x1000 +
        (b2 - 0x80) * 0x40 + (b3 - 0x80)
      if 0x80 ≤ b1 ∧ b1 < 0xC0 ∧ 0x80 ≤ b2 ∧ b2 < 0xC0 ∧ 0x80 ≤ b3 ∧
          b3 < 0xC0 ∧ 0x10000 ≤ n ∧ n < 0x110000 then some (Char.ofNat n, 3)
      else none
    | _ => none

/-- UTF-8 decoding, one character per `utf8Step`; `fuel` bounds the
recursion depth (structural recursion keeps the function kernel-
computable).  `utf8Decode` below supplies the list length as fuel, which
always suffices since every step consumes at least the lead byte. -/
def utf8DecodeAux : Nat → List Nat → Option (List Char)
  | _, [] => some []
  | 0, _ :: _ => none
  | fuel + 1, b :: bs =>
    match utf8Step b bs with
    | none => none
    | some (c, k) => (utf8DecodeAux fuel (bs.drop k)).map (fun cs => c :: cs)

/-- UTF-8 decoding with validation, as performed by Rust's
`String::from_utf8`. -/
def utf8Decode (l : List Nat) : Option (List Char) :=
  utf8DecodeAux l.length l

theorem utf8DecodeAux_congr :
    ∀ (f1 : Nat) (l : List Nat) (f2 : Nat), l.length ≤ f1 → l.length ≤ f2 →
      utf8DecodeAux f1 l = utf8DecodeAux f2 l := by
  intro f1
  induction f1 with
  | zero =>
    intro l f2 h1 _
    have : l = [] := List.length_eq_zero.mp (Nat.le_zero.mp h1)
    subst this
    cases f2 <;> rfl
  | succ f ih =>
    intro l f2 h1 h2
    cases l with
    | nil => cases f2 <;> rfl
    | cons b bs =>
      cases f2 with
      | zero => simp at h2
      | succ g =>
        rw [utf8DecodeAux, utf8DecodeAux]
        cases hs : utf8Step b bs with
        | none => rfl
        | some ck =>
          obtain ⟨c, k⟩ := ck
          dsimp only
          have hd : (bs.drop k).length ≤ bs.length := by
            rw [List.length_drop]; omega
          have hlen : (b :: bs).length = bs.length + 1 := rfl
          rw [ih (bs.drop k) g (by omega) (by omega)]

theorem utf8Decode_cons (b : Nat) (bs : List Nat) :
    utf8Decode (b :: bs) =
      match utf8Step b bs with
      | none => none
      | some (c, k) => (utf8Decode (bs.drop k)).map (fun cs => c :: cs) := by
  rw [utf8Decode, List.length_cons, utf8DecodeAux]
  cases hs : utf8Step b bs with
  | none => rfl
  | some ck =>
    obtain ⟨c, k⟩ := ck
    dsimp only
    rw [utf8Decode]
    rw [utf8DecodeAux_congr bs.length (bs.drop k) (bs.drop k).length
      (by rw [List.length_drop]; omega) (le_refl _)]

theorem utf8Step_one (n : Nat) (h1 : n < 0x80) (bs : List Nat) :
    utf8Step n bs = some (Char.ofNat n, 0) := by
  rw [utf8Step.eq_def, if_pos h1]

theorem utf8Step_two (n : Nat) (h1 : 0x80 ≤ n) (h2 : n < 0x800)
    (bs : List Nat) :
    utf8Step (0xC0 + n / 0x40) ((0x80 + n % 0x40) :: bs) =
      some (Char.ofNat n, 1) := by
  have e6 : (0xC0 + n / 0x40 - 0xC0) * 0x40 + (0x80 + n % 0x40 - 0x80) = n :=
    by omega
  rw [utf8Step.eq_def, if_neg (by omega), if_neg (by omega), if_pos (by omega)]
  dsimp only
  rw [if_pos ⟨by omega, by omega, by omega⟩, e6]

theorem utf8Step_three (n : Nat) (h1 : 0x800 ≤ n) (h2 : n < 0x10000)
    (hv : n < 0xD800 ∨ 0xE000 ≤ n) (bs : List Nat) :
    utf8Step (0xE0 + n / 0x1000)
        ((0x80 + n / 0x40 % 0x40) :: (0x80 + n % 0x40) :: bs) =
      some (Char.ofNat n, 2) := by
  have e6 : (0xE0 + n / 0x1000 - 0xE0) * 0x1000 +
      (0x80 + n / 0x40 % 0x40 - 0x80) * 0x40 + (0x80 + n % 0x40 - 0x80) = n :=
    by omega
  rw [utf8Step.eq_def, if_neg (by omega), if_neg (by omega), if_neg (by omega),
    if_pos (by omega)]
  dsimp only
  rw [if_pos ⟨by omega, by omega, by omega, by omega, by omega, by omega⟩, e6]

theorem utf8Step_four (n : Nat) (h1 : 0x10000 ≤ n) (h2 : n < 0x110000)
    (bs : List Nat) :
    utf8Step (0xF0 + n / 0x40000)
        ((0x80 + n / 0x1000 % 0x40) :: (0x80 + n / 0x40 % 0x40) ::
          (0x80 + n % 0x40) :: bs) =
      some (Char.ofNat n, 3) := by
  have e6 : (0xF0 + n / 0x40000 - 0xF0) * 0x40000 +
      (0x80 + n / 0x1000 % 0x40 - 0x80) * 0x1000 +
      (0x80 + n / 0x40 % 0x40 - 0x80) * 0x40 + (0x80 + n % 0x40 - 0x80) = n :=
    by omega
  rw [utf8Step.eq_def, if_neg (by omega), if_neg (by omega), if_neg (by omega),
    if_neg (by omega)]
  dsimp only
  rw [if_pos ⟨by omega, by omega, by omega, by omega, by omega, by omega,
    by omega, by omega⟩, e6]

theorem utf8Decode_encodeNat_append (n : Nat) (hn : n.isValidChar)
    (rest : List Nat) :
    utf8Decode (utf8EncodeNat n ++ rest) =
      (utf8Decode rest).map (fun cs => Char.ofNat n :: cs) := by
  have hv : n < 0xD800 ∨ (0xE000 ≤ n ∧ n < 0x110000) := hn
  rcases Nat.lt_or_ge n 0x80 with h1 | h1
  · rw [utf8EncodeNat, if_pos h1]
    rw [List.cons_append, List.nil_append, utf8Decode_cons,
      utf8Step_one n h1 rest]
    dsimp only [List.drop]
  · rcases Nat.lt_or_ge n 0x800 with h2 | h2
    · rw [utf8EncodeNat, if_neg (by omega), if_pos h2]
      simp only [List.cons_append, List.nil_append]
      rw [utf8Decode_cons, utf8Step_two n h1 h2 rest]
      dsimp only [List.drop]
    · rcases Nat.lt_or_ge n 0x10000 with h3 | h3
      · rw [utf8EncodeNat, if_neg (by omega), if_neg (by omega), if_pos h3]
        simp only [List.cons_append, List.nil_append]
        rw [utf8Decode_cons, utf8Step_three n h2 h3 (by omega) rest]
        dsimp only [List.drop]
      · rw [utf8EncodeNat, if_neg (by omega), if_neg (by omega),
          if_neg (by omega)]
        simp only [List.cons_append, List.nil_append]
        rw [utf8Decode_cons, utf8Step_four n h3 (by omega) rest]
        dsimp only [List.drop]

theorem utf8Decode_encodeChar_append (c : Char) (rest : List Nat) :
    utf8Decode (utf8EncodeChar c ++ rest) =
      (utf8Decode rest).map (fun cs => c :: cs) := by
  have hv : c.toNat.isValidChar := c.valid
  rw [utf8EncodeChar, utf8Decode_encodeNat_append c.toNat hv rest,
    Char.ofNat_toNat]

/-- Round trip of the UTF-8 codec on character sequences. -/
theorem utf8Decode_utf8Encode (cs : List Char) :
    utf8Decode (utf8Encode cs) = some cs := by
  induction cs with
  | nil => rfl
  | cons c cs ih =>
    rw [utf8Encode, utf8Decode_encodeChar_append, ih, Option.map_some']

/-! ## The serde_pickle string codec

Model of the external `serde_pickle` crate (a dependency, not part of this
repository's sources) restricted to the way `redis.rs` uses it: serializing
a `String` with default options and deserializing bytes back into a
`String` with default options.  With default options the serializer emits
pickle protocol 2: `PROTO 2` (`0x80 0x02`), `BINUNICODE` (`0x58`) with a
32-bit little-endian byte length (`len as u32`) followed by the UTF-8
payload, then `STOP` (`0x2E`).  The deserializer model accepts exactly the
frames the serializer produces and reports a `PickleErr` otherwise. -/

/-- Error type standing for `serde_pickle::Error`; the message is the only
observable this development needs. -/
structure PickleErr where
  msg : String
deriving DecidableEq

/-- The four little-endian bytes of `n` truncated to 32 bits
(`n as u32`). -/
def leU32 (n : Nat) : List Nat :=
  [n % 0x100, n / 0x100 % 0x100, n / 0x10000 % 0x100, n / 0x1000000 % 0x100]

/-- `serde_pickle::to_vec(&v, Default::default())` for a string `v`:
protocol-2 header, `BINUNICODE` + u32 length + UTF-8 payload, `STOP`.
Serializing a string never fails. -/
def to_vec (v : String) : List Nat :=
  0x80 :: 0x02 :: 0x58 :: (leU32 (utf8Encode v.data).length ++
    (utf8Encode v.data ++ [0x2E]))

/-- `serde_pickle::from_slice::<String>(bytes, Default::default())`,
restricted to the frames `to_vec` emits. -/
def from_slice (bytes : List Nat) : Except PickleErr String :=
  match bytes with
  | b0 :: b1 :: b2 :: l0 :: l1 :: l2 :: l3 :: rest =>
    if b0 = 0x80 ∧ b1 = 0x02 ∧ b2 = 0x58 then
      let len := l0 + 0x100 * l1 + 0x10000 * l2 + 0x1000000 * l3
      if rest.drop len = [0x2E] then
        match utf8Decode (rest.take len) with
        | some cs => .ok (String.mk cs)
        | none => .error ⟨"invalid utf-8 in string payload"⟩
      else .error ⟨"unexpected opcode or eof"⟩
    else .error ⟨"unexpected opcode or eof"⟩
  | _ => .error ⟨"unexpected opcode or eof"⟩

/-- Round trip of the envelope codec: decoding the bytes produced by
encoding `v` yields `v`, for every string whose UTF-8 payload fits the
32-bit length field of the `BINUNICODE` frame. -/
theorem from_slice_to_vec (v : String)
    (h : (utf8Encode v.data).length < 0x100000000) :
    from_slice (to_vec v) = .ok v := by
  have hlen : (utf8Encode v.data).length % 0x100 +
      0x100 * ((utf8Encode v.data).length / 0x100 % 0x100) +
      0x10000 * ((utf8Encode v.data).length / 0x10000 % 0x100) +
      0x1000000 * ((utf8Encode v.data).length / 0x1000000 % 0x100) =
      (utf8Encode v.data).length := by omega
  rw [to_vec]
  simp only [leU32, List.cons_append, List.nil_append]
  rw [from_slice.eq_def]
  dsimp only
  rw [if_pos ⟨rfl, rfl, rfl⟩, hlen, if_pos (List.drop_left _ _),
    List.take_left, utf8Decode_utf8Encode]

/-! ## Error types -/

/-- Error type standing for `redis::RedisError`; the diagnostic message is
the only observable this development needs. -/
structure RedisErr where
  msg : String
deriving DecidableEq

/-- `CustomRedisError` (redis.rs lines 12–25): the closed error sum
produced by the wrapper, with `thiserror` `#[from]` conversions from the
pickle, redis and tokio-elapsed source errors. -/
inductive CustomRedisError where
  | notFound
  | pickleError (e : PickleErr)
  | other (e : RedisErr)
  | timeout
deriving DecidableEq

/-- The payloads an `anyhow::Error` from this module can carry.  `set` and
`zrangebyscore` return `anyhow::Result`, whose `?` conversions wrap the
concrete source error (`redis::RedisError`, tokio `Elapsed`,
`serde_pickle::Error`) directly; `anyhow::Error` could also wrap a
`CustomRedisError` (`customE`), but no code path in this module builds
one. -/
inductive AnyhowError where
  | redisE (e : RedisErr)
  | elapsedE
  | pickleE (e : PickleErr)
  | customE (e : CustomRedisError)
deriving DecidableEq

/-! ## Store and environment model -/

/-- The Redis state visible to the six wrapped commands: `kv` holds the
byte values of scalar keys (`GET`/`SET`/`DEL`), `hashes` the string values
of hash fields (`HGET`/`HINCRBY`), and `zquery` gives the server's reply
to `ZRANGEBYSCORE` for a key and verbatim min/max bounds (the range
semantics belong to the external server; the wrapper passes the bounds
through). -/
structure RedisStore where
  kv : String → Option (List Nat)
  hashes : String → String → Option String
  zquery : String → String → String → List String

/-- What the environment does to one wrapped call: whether acquiring the
connection fails, how many milliseconds the issued command takes to
answer, and whether the command itself fails. -/
structure Env where
  connErr : Option RedisErr
  cmdLatencyMillis : Nat
  cmdErr : Option RedisErr

/-- `REDIS_TIMEOUT_MILLISECS` (redis.rs line 10). -/
def REDIS_TIMEOUT_MILLISECS : Nat := 10

/-- Marker for `tokio::time::error::Elapsed`. -/
inductive Elapsed where
  | elapsed
deriving DecidableEq

/-- `tokio::time::timeout(Duration::from_millis(millis), fut).await`: if
the command answers within `millis` the race yields its result, otherwise
the race ends with `Elapsed` and the command's result is discarded. -/
def timeoutRace {α : Type} (millis : Nat) (e : Env) (cmd : α) :
    Except Elapsed α :=
  if millis < e.cmdLatencyMillis then .error .elapsed else .ok cmd

/-! ## Store command semantics

The command results as the `redis` crate delivers them to the wrapper.
A command that reaches the server executes there even when the caller's
timeout race discards the reply, so the mutating commands below return
the updated store alongside the reply. -/

/-- `SET k bytes` applied to the store state. -/
def storeSet (st : RedisStore) (k : String) (bytes : List Nat) :
    RedisStore :=
  { st with kv := fun k2 => if k2 = k then some bytes else st.kv k2 }

/-- `DEL k` applied to the store state (removes the key whatever its
type). -/
def storeDel (st : RedisStore) (k : String) : RedisStore :=
  { st with
    kv := fun k2 => if k2 = k then none else st.kv k2,
    hashes := fun k2 => if k2 = k then fun _ => none else st.hashes k2 }

/-- Accumulate the value of a decimal digit run; `none` on a non-digit. -/
def parseDigitsAux (acc : Nat) : List Char → Option Nat
  | [] => some acc
  | c :: cs =>
    if '0' ≤ c ∧ c ≤ '9' then parseDigitsAux (acc * 10 + (c.toNat - 48)) cs
    else none

/-- Redis's parse of a hash value as a signed decimal integer (an optional
minus sign followed by at least one digit). -/
def parseIntChars : List Char → Option Int
  | [] => none
  | '-' :: cs =>
    if cs.isEmpty then none
    else (parseDigitsAux 0 cs).map (fun n => -(n : Int))
  | cs => (parseDigitsAux 0 cs).map (fun n => (n : Int))

/-- The character of a decimal digit value. -/
def digitChar (n : Nat) : Char := Char.ofNat (48 + n)

/-- Decimal digits of a natural number; `fuel` bounds the recursion so the
function stays kernel-computable (`natDecimal` supplies enough). -/
def natDecimalAux : Nat → Nat → List Char
  | 0, _ => []
  | fuel + 1, n =>
    if n < 10 then [digitChar n]
    else natDecimalAux fuel (n / 10) ++ [digitChar (n % 10)]

/-- Decimal rendering of a natural number. -/
def natDecimal (n : Nat) : List Char := natDecimalAux (n + 1) n

/-- Decimal rendering of an integer, as Redis stores the result of
`HINCRBY`. -/
def intDecimal : Int → List Char
  | .ofNat n => natDecimal n
  | .negSucc m => '-' :: natDecimal (m + 1)

/-- `HINCRBY k f amount`: Redis parses the current field value as an
integer (an absent field counts as 0), adds `amount`, and stores the
decimal rendering; a non-integer current value is a command error. -/
def storeHincr (st : RedisStore) (k f : String) (amount : Int) :
    Except RedisErr (Int × RedisStore) :=
  match parseIntChars ((st.hashes k f).getD "0").data with
  | none => .error ⟨"hash value is not an integer"⟩
  | some cur =>
    .ok (cur + amount,
      { st with hashes := fun k2 =>
          if k2 = k then
            fun f2 => if f2 = f then some (String.mk (intDecimal (cur + amount)))
              else st.hashes k2 f2
          else st.hashes k2 })

/-- `GET k` reply as `get` receives it: a `Vec<u8>`, with Redis nil
converted to the empty vector by `FromRedisValue`. -/
def cmdGet (st : RedisStore) (e : Env) (k : String) :
    Except RedisErr (List Nat) :=
  match e.cmdErr with
  | some err => .error err
  | none => .ok ((st.kv k).getD [])

/-- `SET k bytes` reply and resulting store. -/
def cmdSet (st : RedisStore) (e : Env) (k : String) (bytes : List Nat) :
    Except RedisErr Unit × RedisStore :=
  match e.cmdErr with
  | some err => (.error err, st)
  | none => (.ok (), storeSet st k bytes)

/-- `DEL k` reply and resulting store. -/
def cmdDel (st : RedisStore) (e : Env) (k : String) :
    Except RedisErr Unit × RedisStore :=
  match e.cmdErr with
  | some err => (.error err, st)
  | none => (.ok (), storeDel st k)

/-- `HINCRBY k f amount` reply and resulting store. -/
def cmdHincr (st : RedisStore) (e : Env) (k f : String) (amount : Int) :
    Except RedisErr Unit × RedisStore :=
  match e.cmdErr with
  | some err => (.error err, st)
  | none =>
    match storeHincr st k f amount with
    | .error err => (.error err, st)
    | .ok (_, st2) => (.ok (), st2)

/-- `HGET k field` reply: the field value, `None` when the key or field is
absent. -/
def cmdHget (st : RedisStore) (e : Env) (k field : String) :
    Except RedisErr (Option String) :=
  match e.cmdErr with
  | some err => .error err
  | none => .ok (st.hashes k field)

/-- `ZRANGEBYSCORE k mn mx` reply. -/
def cmdZrange (st : RedisStore) (e : Env) (k mn mx : String) :
    Except RedisErr (List String) :=
  match e.cmdErr with
  | some err => .error err
  | none => .ok (st.zquery k mn mx)

/-! ## The six wrapped operations

Each definition mirrors the corresponding method of
`impl Client for RedisClient` (redis.rs lines 58–142): acquire the
connection (`?` maps a failure through the return type's `From`
conversion), issue the command, race it against the 10 ms timeout, then
map the command result. -/

/-- `RedisClient::zrangebyscore` (lines 60–67); returns `anyhow::Result`. -/
def zrangebyscore (st : RedisStore) (e : Env) (k mn mx : String) :
    Except AnyhowError (List String) :=
  match e.connErr with
  | some err => .error (.redisE err)
  | none =>
    match timeoutRace REDIS_TIMEOUT_MILLISECS e (cmdZrange st e k mn mx) with
    | .error _ => .error .elapsedE
    | .ok (.error err) => .error (.redisE err)
    | .ok (.ok results) => .ok results

/-- `RedisClient::hincrby` (lines 69–82).  The source names the field
parameter `v`; `count.unwrap_or(1)` supplies the default amount. -/
def hincrby (st : RedisStore) (e : Env) (k v : String) (count : Option Int) :
    Except CustomRedisError Unit × RedisStore :=
  match e.connErr with
  | some err => (.error (.other err), st)
  | none =>
    let res := cmdHincr st e k v (count.getD 1)
    (match timeoutRace REDIS_TIMEOUT_MILLISECS e res.1 with
     | .error _ => .error .timeout
     | .ok (.error err) => .error (.other err)
     | .ok (.ok _) => .ok (), res.2)

/-- `RedisClient::get` (lines 84–106). -/
def get (st : RedisStore) (e : Env) (k : String) :
    Except CustomRedisError String :=
  match e.connErr with
  | some err => .error (.other err)
  | none =>
    match timeoutRace REDIS_TIMEOUT_MILLISECS e (cmdGet st e k) with
    | .error _ => .error .timeout
    | .ok fut =>
      if (match fut with | .ok v => v.isEmpty | .error _ => false) then
        .error .notFound
      else
        match fut with
        | .error err => .error (.other err)
        | .ok raw_bytes =>
          match from_slice raw_bytes with
          | .error pe => .error (.pickleError pe)
          | .ok string_response => .ok string_response

/-- `serde_pickle::to_vec(&v, Default::default())` as the `Result` the
source inspects on line 111; on a string value serialization always
succeeds. -/
def to_vec_result (v : String) : Except PickleErr (List Nat) :=
  .ok (to_vec v)

/-- Body of `RedisClient::set` (lines 108–119), factored over the result
of the serialization step on line 111, which the source computes before
acquiring a connection.  Returns `anyhow::Result`. -/
def set_core (encoded : Except PickleErr (List Nat)) (st : RedisStore)
    (e : Env) (k : String) : Except AnyhowError Unit × RedisStore :=
  match encoded with
  | .error pe => (.error (.pickleE pe), st)
  | .ok bytes =>
    match e.connErr with
    | some err => (.error (.redisE err), st)
    | none =>
      let res := cmdSet st e k bytes
      (match timeoutRace REDIS_TIMEOUT_MILLISECS e res.1 with
       | .error _ => .error .elapsedE
       | .ok (.error err) => .error (.redisE err)
       | .ok (.ok _) => .ok (), res.2)

/-- `RedisClient::set` (lines 108–119). -/
def set (st : RedisStore) (e : Env) (k v : String) :
    Except AnyhowError Unit × RedisStore :=
  set_core (to_vec_result v) st e k

/-- `RedisClient::del` (lines 121–128). -/
def del (st : RedisStore) (e : Env) (k : String) :
    Except CustomRedisError Unit × RedisStore :=
  match e.connErr with
  | some err => (.error (.other err), st)
  | none =>
    let res := cmdDel st e k
    (match timeoutRace REDIS_TIMEOUT_MILLISECS e res.1 with
     | .error _ => .error .timeout
     | .ok (.error err) => .error (.other err)
     | .ok (.ok _) => .ok (), res.2)

/-- `RedisClient::hget` (lines 130–141). -/
def hget (st : RedisStore) (e : Env) (k field : String) :
    Except CustomRedisError String :=
  match e.connErr with
  | some err => .error (.other err)
  | none =>
    match timeoutRace REDIS_TIMEOUT_MILLISECS e (cmdHget st e k field) with
    | .error _ => .error .timeout
    | .ok fut =>
      match fut with
      | .error err => .error (.other err)
      | .ok (some value) => .ok value
      | .ok none => .error .notFound

/-! ## Shared facts about the operations -/

theorem to_vec_isEmpty (v : String) : (to_vec v).isEmpty = false := rfl

/-- `get` under a responsive environment: the command reply is the stored
bytes (empty for an absent key), and the result follows the source's
empty-check / decode sequence. -/
theorem get_eval (st : RedisStore) (e : Env) (k : String)
    (hc : e.connErr = none) (ht : e.cmdLatencyMillis ≤ REDIS_TIMEOUT_MILLISECS)
    (hcmd : e.cmdErr = none) :
    get st e k =
      if ((st.kv k).getD []).isEmpty then .error .notFound
      else
        match from_slice ((st.kv k).getD []) with
        | .error pe => .error (.pickleError pe)
        | .ok s => .ok s := by
  have hr : ¬ REDIS_TIMEOUT_MILLISECS < e.cmdLatencyMillis := Nat.not_lt.mpr ht
  simp only [get, cmdGet, timeoutRace, hc, hcmd, if_neg hr]

/-- `hget` under a responsive environment returns the stored field value
verbatim, `NotFound` when absent. -/
theorem hget_eval (st : RedisStore) (e : Env) (k field : String)
    (hc : e.connErr = none) (ht : e.cmdLatencyMillis ≤ REDIS_TIMEOUT_MILLISECS)
    (hcmd : e.cmdErr = none) :
    hget st e k field =
      match st.hashes k field with
      | some value => .ok value
      | none => .error .notFound := by
  have hr : ¬ REDIS_TIMEOUT_MILLISECS < e.cmdLatencyMillis := Nat.not_lt.mpr ht
  simp only [hget, cmdHget, timeoutRace, hc, hcmd, if_neg hr]
  cases st.hashes k field <;> rfl

/-- A successful `set` leaves the store with the envelope bytes under `k`. -/
theorem set_ok_store (st : RedisStore) (e : Env) (k v : String)
    (hset : (set st e k v).1 = .ok ()) :
    (set st e k v).2 = storeSet st k (to_vec v) := by
  cases hc : e.connErr with
  | some err => simp [set, set_core, to_vec_result, hc] at hset
  | none =>
    by_cases hr : REDIS_TIMEOUT_MILLISECS < e.cmdLatencyMillis
    · simp [set, set_core, to_vec_result, timeoutRace, hc, hr] at hset
    · cases hcm : e.cmdErr with
      | some err =>
        simp [set, set_core, to_vec_result, timeoutRace, cmdSet, hc, hr, hcm]
          at hset
      | none =>
        simp [set, set_core, to_vec_result, timeoutRace, cmdSet, hc, hr, hcm]

/-! ## Shared concrete fixtures -/

/-- Sample store: scalar key `"k"` holds the envelope encoding of the
empty string, hash key `"h"` has field `"f"` set to `"plain"` (not an
envelope), and every other key is absent. -/
def sampleStore : RedisStore :=
  ⟨fun k => if k = "k" then some (to_vec "") else none,
   fun k f => if k = "h" ∧ f = "f" then some "plain" else none,
   fun _ _ _ => []⟩

/-- Environment where the connection succeeds, the command answers
immediately and does not fail. -/
def envOk : Env := ⟨none, 0, none⟩

/-- Environment where the command takes 11 ms, exceeding the 10 ms bound. -/
def envSlow : Env := ⟨none, 11, none⟩

/-- Environment where acquiring the connection fails (and the command, had
it been issued, would have taken 1000 ms). -/
def envConnDown : Env := ⟨some ⟨"conn down"⟩, 1000, none⟩

/-- Environment where the connection succeeds but the issued command fails. -/
def envCmdBoom : Env := ⟨none, 0, some ⟨"boom"⟩⟩

/-! ## Claims -/

/-- C1: for every string `v`, decoding (via the legacy pickle codec,
`serde_pickle` with default options) the byte envelope produced by
encoding `v` yields exactly `v` — the deserialization applied in `get` of
the bytes produced by the serialization applied in `set` is the identity
on strings.  (The hypothesis is the 32-bit length field of the
`BINUNICODE` frame: the envelope format can only carry payloads below
4 GiB.) -/
theorem C1_roundtrip (v : String)
    (h : (utf8Encode v.data).length < 0x100000000) :
    from_slice (to_vec v) = .ok v :=
  from_slice_to_vec v h

theorem C1_roundtrip_witness :
    (utf8Encode ("session:42" : String).data).length < 0x100000000 ∧
      from_slice (to_vec "session:42") = .ok "session:42" :=
  ⟨by decide, C1_roundtrip "session:42" (by decide)⟩

/-- C2 (counterexample): the claim says `get` returns `NotFound` whenever
the value stored under the key decodes to an empty string result.  But the
source checks whether the raw byte vector is empty, not the decoded
string: storing the envelope encoding of `""` (a non-empty byte vector
that decodes to the empty string) makes `get` return `Ok ""` — an empty
string, not `NotFound`. -/
theorem C2_counterexample :
    sampleStore.kv "k" = some (to_vec "") ∧
    from_slice (to_vec "") = .ok "" ∧
    get sampleStore envOk "k" = .ok "" := by
  refine ⟨rfl, by decide, by decide⟩

/-- C2 (amended): under a responsive environment, `get k` returns
`NotFound` — never an empty string and never `Other` — whenever the raw
stored byte envelope under `k` is absent or empty (in particular whenever
`k` was never set); when a non-empty envelope is stored, `get` returns its
decode result, which may be the empty string. -/
theorem C2_amended (st : RedisStore) (e : Env) (k : String)
    (hc : e.connErr = none) (ht : e.cmdLatencyMillis ≤ REDIS_TIMEOUT_MILLISECS)
    (hcmd : e.cmdErr = none) :
    (((st.kv k).getD []).isEmpty = true → get st e k = .error .notFound) ∧
    (∀ bytes, st.kv k = some bytes → bytes.isEmpty = false →
      get st e k =
        match from_slice bytes with
        | .error pe => .error (.pickleError pe)
        | .ok s => .ok s) := by
  constructor
  · intro h
    rw [get_eval st e k hc ht hcmd, if_pos h]
  · intro bytes hb hne
    rw [get_eval st e k hc ht hcmd, hb]
    simp only [Option.getD_some]
    rw [if_neg (by simp [hne])]

theorem C2_amended_witness :
    sampleStore.kv "missing" = none ∧
    get sampleStore envOk "missing" = .error .notFound :=
  ⟨by decide,
    (C2_amended sampleStore envOk "missing" rfl (by decide) rfl).1 (by decide)⟩

/-- C3: if `set k v` succeeds, an immediately following `get k` in a
responsive environment (no connection error, answer within the bound, no
command error) returns `Ok v`. -/
theorem C3_set_then_get (st : RedisStore) (e e2 : Env) (k v : String)
    (hlen : (utf8Encode v.data).length < 0x100000000)
    (hset : (set st e k v).1 = .ok ())
    (hc : e2.connErr = none)
    (ht : e2.cmdLatencyMillis ≤ REDIS_TIMEOUT_MILLISECS)
    (hcmd : e2.cmdErr = none) :
    get (set st e k v).2 e2 k = .ok v := by
  rw [set_ok_store st e k v hset, get_eval _ e2 k hc ht hcmd]
  simp [storeSet, to_vec_isEmpty, from_slice_to_vec v hlen]

theorem C3_set_then_get_witness :
    (set sampleStore envOk "a" "xy").1 = .ok () ∧
    get (set sampleStore envOk "a" "xy").2 envOk "a" = .ok "xy" :=
  ⟨by decide,
    C3_set_then_get sampleStore envOk envOk "a" "xy" (by decide) (by decide)
      rfl (by decide) rfl⟩

/-- C4 (counterexample): the claim says every failure of every one of the
six operations reaches the caller as a value of the closed
`CustomRedisError` sum with the store diagnostic inside `Other`.  But
`zrangebyscore` (like `set`) returns `anyhow::Result`: a store failure
reaches the caller as the anyhow-wrapped `redis::RedisError` itself, not
as any `CustomRedisError` value, so those callers cannot exhaustively
branch on the four kinds. -/
theorem C4_counterexample :
    zrangebyscore sampleStore envCmdBoom "lb" "0" "100" =
      .error (.redisE ⟨"boom"⟩) ∧
    ¬ ∃ ec : CustomRedisError,
      zrangebyscore sampleStore envCmdBoom "lb" "0" "100" =
        .error (.customE ec) := by
  have h1 : zrangebyscore sampleStore envCmdBoom "lb" "0" "100" =
      .error (.redisE ⟨"boom"⟩) := by decide
  refine ⟨h1, ?_⟩
  rintro ⟨ec, h⟩
  rw [h1] at h
  exact AnyhowError.noConfusion (Except.error.inj h)

/-- C4 (amended): `hincrby`, `get`, `del` and `hget` return every failure
as a value of the closed four-kind `CustomRedisError` sum, with the
underlying store diagnostic preserved inside `Other` for both connection
and command failures.  `set` and `zrangebyscore` return anyhow-wrapped
source errors carrying the same diagnostics, and never a
`CustomRedisError` value. -/
theorem C4_amended :
    (∀ st e k err, e.connErr = some err →
      get st e k = .error (.other err)) ∧
    (∀ st e k f err, e.connErr = some err →
      hget st e k f = .error (.other err)) ∧
    (∀ st e k err, e.connErr = some err →
      (del st e k).1 = .error (.other err)) ∧
    (∀ st e k f c err, e.connErr = some err →
      (hincrby st e k f c).1 = .error (.other err)) ∧
    (∀ st e k err, e.connErr = none → e.cmdErr = some err →
      e.cmdLatencyMillis ≤ REDIS_TIMEOUT_MILLISECS →
      get st e k = .error (.other err)) ∧
    (∀ st e k f err, e.connErr = none → e.cmdErr = some err →
      e.cmdLatencyMillis ≤ REDIS_TIMEOUT_MILLISECS →
      hget st e k f = .error (.other err)) ∧
    (∀ st e k err, e.connErr = none → e.cmdErr = some err →
      e.cmdLatencyMillis ≤ REDIS_TIMEOUT_MILLISECS →
      (del st e k).1 = .error (.other err)) ∧
    (∀ st e k f c err, e.connErr = none → e.cmdErr = some err →
      e.cmdLatencyMillis ≤ REDIS_TIMEOUT_MILLISECS →
      (hincrby st e k f c).1 = .error (.other err)) ∧
    (∀ st e k v err, e.connErr = some err →
      (set st e k v).1 = .error (.redisE err)) ∧
    (∀ st e k mn mx err, e.connErr = some err →
      zrangebyscore st e k mn mx = .error (.redisE err)) ∧
    (∀ st e k v err, e.connErr = none → e.cmdErr = some err →
      e.cmdLatencyMillis ≤ REDIS_TIMEOUT_MILLISECS →
      (set st e k v).1 = .error (.redisE err)) ∧
    (∀ st e k mn mx err, e.connErr = none → e.cmdErr = some err →
      e.cmdLatencyMillis ≤ REDIS_TIMEOUT_MILLISECS →
      zrangebyscore st e k mn mx = .error (.redisE err)) ∧
    (∀ st e k v a ec, (set st e k v).1 = .error a → a ≠ .customE ec) ∧
    (∀ st e k mn mx a ec, zrangebyscore st e k mn mx = .error a →
      a ≠ .customE ec) := by
  refine ⟨?_, ?_, ?_, ?_, ?_, ?_, ?_, ?_, ?_, ?_, ?_, ?_, ?_, ?_⟩
  · intro st e k err hc
    simp [get, hc]
  · intro st e k f err hc
    simp [hget, hc]
  · intro st e k err hc
    simp [del, hc]
  · intro st e k f c err hc
    simp [hincrby, hc]
  · intro st e k err hc hcm ht
    simp [get, cmdGet, timeoutRace, hc, hcm, if_neg (Nat.not_lt.mpr ht)]
  · intro st e k f err hc hcm ht
    simp [hget, cmdHget, timeoutRace, hc, hcm, if_neg (Nat.not_lt.mpr ht)]
  · intro st e k err hc hcm ht
    simp [del, cmdDel, timeoutRace, hc, hcm, if_neg (Nat.not_lt.mpr ht)]
  · intro st e k f c err hc hcm ht
    simp [hincrby, cmdHincr, timeoutRace, hc, hcm,
      if_neg (Nat.not_lt.mpr ht)]
  · intro st e k v err hc
    simp [set, set_core, to_vec_result, hc]
  · intro st e k mn mx err hc
    simp [zrangebyscore, hc]
  · intro st e k v err hc hcm ht
    simp [set, set_core, to_vec_result, cmdSet, timeoutRace, hc, hcm,
      if_neg (Nat.not_lt.mpr ht)]
  · intro st e k mn mx err hc hcm ht
    simp [zrangebyscore, cmdZrange, timeoutRace, hc, hcm,
      if_neg (Nat.not_lt.mpr ht)]
  · intro st e k v a ec ha
    cases hc : e.connErr with
    | some err =>
      simp [set, set_core, to_vec_result, hc] at ha
      subst ha
      simp
    | none =>
      by_cases hr : REDIS_TIMEOUT_MILLISECS < e.cmdLatencyMillis
      · simp [set, set_core, to_vec_result, timeoutRace, hc, hr] at ha
        subst ha
        simp
      · cases hcm : e.cmdErr with
        | some err =>
          simp [set, set_core, to_vec_result, cmdSet, timeoutRace, hc, hr,
            hcm] at ha
          subst ha
          simp
        | none =>
          simp [set, set_core, to_vec_result, cmdSet, timeoutRace, hc, hr,
            hcm] at ha
  · intro st e k mn mx a ec ha
    cases hc : e.connErr with
    | some err =>
      simp [zrangebyscore, hc] at ha
      subst ha
      simp
    | none =>
      by_cases hr : REDIS_TIMEOUT_MILLISECS < e.cmdLatencyMillis
      · simp [zrangebyscore, timeoutRace, hc, hr] at ha
        subst ha
        simp
      · cases hcm : e.cmdErr with
        | some err =>
          simp [zrangebyscore, cmdZrange, timeoutRace, hc, hr, hcm] at ha
          subst ha
          simp
        | none =>
          simp [zrangebyscore, cmdZrange, timeoutRace, hc, hr, hcm] at ha

theorem C4_amended_witness :
    envConnDown.connErr = some ⟨"conn down"⟩ ∧
    hget sampleStore envConnDown "h" "f" = .error (.other ⟨"conn down"⟩) :=
  ⟨rfl, C4_amended.2.1 sampleStore envConnDown "h" "f" ⟨"conn down"⟩ rfl⟩

/-- C5: when the store does not answer the issued command within the
10 ms bound (the connection having been acquired), every one of the six
operations returns its timeout-elapsed failure — the `Timeout` kind for
the four `CustomRedisError` operations, the anyhow-wrapped tokio
`Elapsed` for `set` and `zrangebyscore` — never `Other` and never a store
reply; the result is the same whatever the store holds, so the in-flight
command's reply is never delivered to the caller. -/
theorem C5_timeout_all_ops (st : RedisStore) (e : Env) (k f mn mx v : String)
    (c : Option Int) (hc : e.connErr = none)
    (ht : REDIS_TIMEOUT_MILLISECS < e.cmdLatencyMillis) :
    get st e k = .error .timeout ∧
    hget st e k f = .error .timeout ∧
    (del st e k).1 = .error .timeout ∧
    (hincrby st e k f c).1 = .error .timeout ∧
    (set st e k v).1 = .error .elapsedE ∧
    zrangebyscore st e k mn mx = .error .elapsedE := by
  refine ⟨?_, ?_, ?_, ?_, ?_, ?_⟩ <;>
    simp [get, hget, del, hincrby, set, set_core, to_vec_result,
      zrangebyscore, timeoutRace, hc, if_pos ht]

theorem C5_timeout_all_ops_witness :
    envSlow.connErr = none ∧
    REDIS_TIMEOUT_MILLISECS < envSlow.cmdLatencyMillis ∧
    get sampleStore envSlow "k" = .error .timeout :=
  ⟨rfl, by decide,
    (C5_timeout_all_ops sampleStore envSlow "k" "f" "0" "1" "v" none rfl
      (by decide)).1⟩

/-- C6: under a responsive environment, `hget` returns `NotFound` when the
key or field is absent, and the stored field value verbatim — no envelope
encoding or decoding — when the field is present. -/
theorem C6_hget_plain (st : RedisStore) (e : Env) (k field : String)
    (hc : e.connErr = none) (ht : e.cmdLatencyMillis ≤ REDIS_TIMEOUT_MILLISECS)
    (hcmd : e.cmdErr = none) :
    (st.hashes k field = none → hget st e k field = .error .notFound) ∧
    (∀ value, st.hashes k field = some value →
      hget st e k field = .ok value) := by
  constructor
  · intro h
    rw [hget_eval st e k field hc ht hcmd, h]
  · intro value h
    rw [hget_eval st e k field hc ht hcmd, h]

theorem C6_hget_plain_witness :
    sampleStore.hashes "h" "f" = some "plain" ∧
    hget sampleStore envOk "h" "f" = .ok "plain" ∧
    hget sampleStore envOk "nope" "f" = .error .notFound :=
  ⟨by decide,
    (C6_hget_plain sampleStore envOk "h" "f" rfl (by decide) rfl).2 "plain"
      (by decide),
    (C6_hget_plain sampleStore envOk "nope" "f" rfl (by decide) rfl).1
      (by decide)⟩

/-- C7: `hincrby k f None` and `hincrby k f (Some 1)` run the same
underlying increment with amount exactly 1 (`count.unwrap_or(1)`), so they
produce the same result and the same store on every state and
environment. -/
theorem C7_hincrby_default (st : RedisStore) (e : Env) (k v : String) :
    hincrby st e k v none = hincrby st e k v (some 1) := rfl

/-- C8: the serialization step of `set` on a string value always succeeds
and produces the envelope `to_vec v`; when `set` succeeds, the bytes
stored under `k` are exactly that envelope. -/
theorem C8_set_envelope (st : RedisStore) (e : Env) (k v : String)
    (hset : (set st e k v).1 = .ok ()) :
    to_vec_result v = .ok (to_vec v) ∧
    (set st e k v).2.kv k = some (to_vec v) := by
  refine ⟨rfl, ?_⟩
  rw [set_ok_store st e k v hset]
  simp [storeSet]

theorem C8_set_envelope_witness :
    (set sampleStore envOk "a" "xy").1 = .ok () ∧
    (set sampleStore envOk "a" "xy").2.kv "a" = some (to_vec "xy") :=
  ⟨by decide, (C8_set_envelope sampleStore envOk "a" "xy" (by decide)).2⟩

/-- C9: in `set`, the serialization step precedes connection acquisition:
if it fails, the pickle failure is returned unconditionally — whatever the
environment would do to the connection or the command — and the store is
unchanged. -/
theorem C9_encode_first (st : RedisStore) (e : Env) (k : String)
    (pe : PickleErr) :
    set_core (.error pe) st e k = (.error (.pickleE pe), st) := rfl

/-- C10: the 10 ms race applies only to the issued command; connection
acquisition happens before it, so a failing connection acquisition yields
the store error — never the timeout failure — even when the environment's
command latency exceeds the bound. -/
theorem C10_conn_before_race (st : RedisStore) (e : Env)
    (k f mn mx v : String) (c : Option Int) (err : RedisErr)
    (hc : e.connErr = some err) :
    get st e k = .error (.other err) ∧
    hget st e k f = .error (.other err) ∧
    (del st e k).1 = .error (.other err) ∧
    (hincrby st e k f c).1 = .error (.other err) ∧
    (set st e k v).1 = .error (.redisE err) ∧
    zrangebyscore st e k mn mx = .error (.redisE err) ∧
    get st e k ≠ .error .timeout ∧
    (set st e k v).1 ≠ .error .elapsedE := by
  refine ⟨?_, ?_, ?_, ?_, ?_, ?_, ?_, ?_⟩ <;>
    simp [get, hget, del, hincrby, set, set_core, to_vec_result,
      zrangebyscore, hc]

theorem C10_conn_before_race_witness :
    envConnDown.connErr = some ⟨"conn down"⟩ ∧
    REDIS_TIMEOUT_MILLISECS < envConnDown.cmdLatencyMillis ∧
    get sampleStore envConnDown "k" = .error (.other ⟨"conn down"⟩) :=
  ⟨rfl, by decide,
    (C10_conn_before_race sampleStore envConnDown "k" "f" "0" "1" "v" none
      ⟨"conn down"⟩ rfl).1⟩

end FeatureFlagsRedis
